import Mathlib

/-!
Verification development for the goapplib composition layer.

This file shallowly embeds the parts of the library that the checked
properties are about:

* template-spec parsing and the template-name resolution performed at
  route-registration time (`mixins.go`: `ParseTemplateSpec`, `baseFileName`,
  `WithTemplate`, `Register`; `muxbuilder.go`: `MuxBuilder.Page`,
  `typeNameFromValue`),
* the per-request handler behaviour produced by `Register` and by
  `MuxBuilder.Page` (load result handling, error responses, render calls),
* the pagination mixin (`WithPagination.Load`, `EvalPages`, `Offset`),
* the page-metadata mixin (`BasePage.Load`),
* the loader chain (`view.go`: `LoadAll`),
* the query-parameter helpers (`intQueryParam`, `strconv.Atoi`).

Go strings are modelled as Lean `String` (lists of characters); the
delimiters involved (`:`, `/`) are ASCII, so character indices and Go's
byte indices agree on the slices taken.  Go `int` values are modelled as
`ℤ`; `strconv.Atoi`'s 64-bit range check is modelled explicitly.  Go
`error` values are modelled as `Option String` (the error message), so
`nil` becomes `none`.  Stateful methods become explicit state passing.
-/

namespace GoAppLib

/-- Index of the last occurrence of character `c` in a character list,
counting from the front, or `none` when `c` does not occur.  This models
Go's `strings.LastIndex(s, t)` for a single-character ASCII `t`. -/
def lastIdx : List Char → Char → Option Nat
  | [], _ => none
  | x :: xs, c =>
    match lastIdx xs c with
    | some i => some (i + 1)
    | none => if x = c then some 0 else none

/-- Last index of a character in a string (see `lastIdx`). -/
def strLastIndex (s : String) (c : Char) : Option Nat :=
  lastIdx s.data c

/-- First `n` characters of a string: models the Go slice `s[:n]`. -/
def takeChars (s : String) (n : Nat) : String :=
  (s.data.take n).asString

/-- Characters of a string from position `n` on: models the Go slice
`s[n:]`. -/
def dropChars (s : String) (n : Nat) : String :=
  (s.data.drop n).asString

/-- Models Go's `strings.Contains(s, c)` for a single-character `c`. -/
def containsChar (s : String) (c : Char) : Bool :=
  s.data.contains c

/-- Embeds `baseFileName` (mixins.go): the substring after the last `/`,
or the whole string when there is no `/`. -/
def baseFileName (path : String) : String :=
  match strLastIndex path '/' with
  | some idx => dropChars path (idx + 1)
  | none => path

/-- Embeds `ParseTemplateSpec` (mixins.go): split at the last `:` when
present (the part after it is the block name, verbatim, possibly empty);
otherwise the block name is auto-derived via `baseFileName`. -/
def ParseTemplateSpec (spec : String) : String × String :=
  match strLastIndex spec ':' with
  | some idx => (takeChars spec idx, dropChars spec (idx + 1))
  | none => (spec, baseFileName spec)

/-- Embeds the `options` struct (mixins.go) as far as template resolution
is concerned (the middleware list plays no role in template-name or
error-handling behaviour and is applied identically by both registration
paths). -/
structure Options where
  templateFileName : String
  templateBlockName : String
deriving DecidableEq, Repr

/-- The zero value of `options`, as built at the start of `Register` and
of `MuxBuilder.Page`. -/
def emptyOptions : Options :=
  { templateFileName := "", templateBlockName := "" }

/-- Embeds the `WithTemplate(spec)` option (mixins.go): stores the parsed
file and block name into the options. -/
def WithTemplate (spec : String) (o : Options) : Options :=
  { o with
    templateFileName := (ParseTemplateSpec spec).1
    templateBlockName := (ParseTemplateSpec spec).2 }

/-- Embeds the template-identity resolution performed by `Register`
(mixins.go, lines 348-359).  `typeName` stands for the string Go's
reflection returns for `typeNameOf[V]()`.  Note that the auto-derivation
guard tests `strings.Contains(o.templateFileName, ":")` on the *parsed*
file name stored in the options, not on the original spec string. -/
def registerTemplateResolve (o : Options) (typeName : String) : String × String :=
  let templateFileName := if o.templateFileName = "" then typeName else o.templateFileName
  let templateBlockName :=
    if o.templateBlockName = "" ∧ containsChar o.templateFileName ':' = false then
      baseFileName templateFileName
    else o.templateBlockName
  (templateFileName, templateBlockName)

/-- Embeds the template-identity resolution performed by `MuxBuilder.Page`
(muxbuilder.go, lines 22-28).  When no explicit template file is set the Go
code calls `typeNameFromValue(sample)`, which (for the non-nil sample
produced by `maker()`) calls `typeNameOf[any]()`; there `reflect.TypeOf`
of a nil interface returns `nil` and the subsequent `Kind()` call panics,
so registration fails: that fallible path is modelled as `none`.  In all
other cases the block name is taken from the options as-is, with no
auto-derivation step. -/
def pageTemplateResolve (o : Options) : Option (String × String) :=
  if o.templateFileName = "" then none
  else some (o.templateFileName, o.templateBlockName)

/-- Observable actions a handler performs on the response writer. -/
inductive Event where
  | wroteError (status : Nat) (body : String)
  | renderCalled (fileName blockName : String)
deriving DecidableEq, Repr

/-- Number of render calls in a handler trace. -/
def renderCount (events : List Event) : Nat :=
  events.countP fun e =>
    match e with
    | Event.renderCalled _ _ => true
    | _ => false

/-- Embeds the per-request handler body built by `Register` (mixins.go,
lines 362-383).  `loadRes` is the `(err, finished)` pair returned by the
view's `Load`; `render` is the `app.RenderTemplate` collaborator, returning
`some msg` on a render error.  The trace lists what is written to the
response: nothing when `finished` is true (checked before the error), a
500 response carrying the load error's message, or a render call followed,
on render failure, by a 500 response with the fixed body
"Template render error". -/
def registerHandler (fileName blockName : String) (loadRes : Option String × Bool)
    (render : String → String → Option String) : List Event :=
  match loadRes with
  | (_, true) => []
  | (some msg, false) => [Event.wroteError 500 msg]
  | (none, false) =>
    match render fileName blockName with
    | some _ => [Event.renderCalled fileName blockName,
                 Event.wroteError 500 "Template render error"]
    | none => [Event.renderCalled fileName blockName]

/-- Embeds the per-request handler body built by `MuxBuilder.Page`
(muxbuilder.go, lines 31-45).  Identical to `registerHandler` up to the
render call, but the value returned by `b.app.RenderTemplate` is
discarded: no error response is written when rendering fails. -/
def pageHandler (fileName blockName : String) (loadRes : Option String × Bool)
    (_render : String → String → Option String) : List Event :=
  match loadRes with
  | (_, true) => []
  | (some msg, false) => [Event.wroteError 500 msg]
  | (none, false) => [Event.renderCalled fileName blockName]

/-- A request's URL query, modelled as an ordered association list of
key/value pairs (Go's `url.Values.Get` returns the first value for a key,
and the empty string when the key is absent). -/
def Query : Type :=
  List (String × String)

/-- Models `r.URL.Query().Get(name)`: first value for `name`, or `""`. -/
def queryGet (q : Query) (name : String) : String :=
  match List.find? (fun kv => kv.1 = name) q with
  | some kv => kv.2
  | none => ""

/-- Value of a decimal digit character. -/
def digitVal (c : Char) : Nat :=
  c.toNat - '0'.toNat

/-- Value of a list of decimal digit characters. -/
def digitsVal (l : List Char) : Nat :=
  l.foldl (fun acc c => acc * 10 + digitVal c) 0

/-- Embeds Go's `strconv.Atoi`: an optional leading `+` or `-` sign
followed by one or more ASCII digits, with the result required to fit in
a signed 64-bit integer (`Atoi` is `ParseInt(s, 10, 0)`, and out-of-range
inputs return a non-nil error).  Every other input yields an error,
modelled as `none`. -/
def goAtoi (s : String) : Option ℤ :=
  match s.data with
  | [] => none
  | c :: rest =>
    let neg : Bool := c = '-'
    let digits : List Char := if c = '-' ∨ c = '+' then rest else c :: rest
    if digits = [] then none
    else if digits.all Char.isDigit then
      let v : ℤ := if neg then -(digitsVal digits : ℤ) else (digitsVal digits : ℤ)
      if v < -(2 ^ 63) ∨ 2 ^ 63 - 1 < v then none else some v
    else none

/-- Embeds `intQueryParam` (mixins.go): the query parameter's value parsed
as an integer, with `defaultVal` used when the parameter is absent (or has
an empty value, which Go cannot distinguish from absence here) or when
`strconv.Atoi` reports an error. -/
def intQueryParam (q : Query) (name : String) (defaultVal : ℤ) : ℤ :=
  let val := queryGet q name
  if val = "" then defaultVal
  else
    match goAtoi val with
    | none => defaultVal
    | some i => i

/-- Embeds the `WithPagination` mixin's state (mixins.go). -/
structure WithPagination where
  CurrentPage : ℤ
  PageSize : ℤ
  TotalCount : ℤ
  HasPrevPage : Bool
  HasNextPage : Bool
  Pages : List ℤ
deriving DecidableEq, Repr

/-- The zero value of `WithPagination` (a freshly allocated mixin). -/
def emptyPagination : WithPagination :=
  { CurrentPage := 0, PageSize := 0, TotalCount := 0,
    HasPrevPage := false, HasNextPage := false, Pages := [] }

/-- Embeds `WithPagination.Load` (mixins.go, lines 42-58): read `page`
(default 0) and `pageSize` (default 20) from the query, then reset a
negative page to 0, reset a page size below 1 to 20, and cap a page size
above 100 at 100; always return `(nil, false)`. -/
def WithPagination.Load (q : Query) (p : WithPagination) :
    WithPagination × (Option String × Bool) :=
  let currentPage0 := intQueryParam q "page" 0
  let pageSize0 := intQueryParam q "pageSize" 20
  let currentPage := if currentPage0 < 0 then 0 else currentPage0
  let pageSize1 := if pageSize0 < 1 then 20 else pageSize0
  let pageSize := if 100 < pageSize1 then 100 else pageSize1
  ({ p with CurrentPage := currentPage, PageSize := pageSize }, (none, false))

/-- Go's integer division, which truncates toward zero. -/
def goDiv (a b : ℤ) : ℤ :=
  Int.tdiv a b

/-- The list `[a, a+1, ..., b-1]` of integers, modelling the Go loop
`for i := a; i < b; i++`. -/
def intRange (a b : ℤ) : List ℤ :=
  (List.range (b - a).toNat).map fun (i : ℕ) => a + (i : ℤ)

/-- Embeds the list built by `WithPagination.EvalPages` (mixins.go, lines
69-97) as a function of the three fields it reads: clear the window; stop
while empty when the total count or page size is not positive or when
`totalPages = (TotalCount + PageSize - 1) / PageSize` is at most 1;
otherwise emit the pages from `start` to `end` where `start` begins at
`CurrentPage - 2` floored at 0, `end` is `start + 5`, and when `end`
exceeds `totalPages` it is pulled back to `totalPages` with `start`
becoming `totalPages - 5` floored at 0. -/
def evalPagesList (totalCount pageSize currentPage : ℤ) : List ℤ :=
  if totalCount ≤ 0 ∨ pageSize ≤ 0 then []
  else
    let totalPages := goDiv (totalCount + pageSize - 1) pageSize
    if totalPages ≤ 1 then []
    else
      let start0 := currentPage - 2
      let start1 := if start0 < 0 then 0 else start0
      let end0 := start1 + 5
      if totalPages < end0 then
        intRange (if totalPages - 5 < 0 then 0 else totalPages - 5) totalPages
      else
        intRange start1 end0

/-- Embeds `WithPagination.EvalPages` as a state transformer. -/
def WithPagination.EvalPages (p : WithPagination) : WithPagination :=
  { p with Pages := evalPagesList p.TotalCount p.PageSize p.CurrentPage }

/-- Reduction of an integer to the two's-complement 64-bit range
`[-2^63, 2^63)`: the value a Go `int` (64-bit on the supported platforms)
holds after an overflowing operation. -/
def wrap64 (z : ℤ) : ℤ :=
  (z + 2 ^ 63) % 2 ^ 64 - 2 ^ 63

/-- Embeds `WithPagination.Offset` (mixins.go, lines 100-102): the product
`CurrentPage * PageSize` computed with Go's 64-bit `int` multiplication,
which wraps on overflow — modelled as the unbounded product reduced to the
two's-complement 64-bit range. -/
def WithPagination.Offset (p : WithPagination) : ℤ :=
  wrap64 (p.CurrentPage * p.PageSize)

/-- Embeds the `BasePage` mixin's state (mixins.go). -/
structure BasePage where
  Title : String
  BodyClass : String
  ActiveTab : String
  CustomHeader : Bool
  DisableSplashScreen : Bool
  SplashTitle : String
  SplashMessage : String
  BodyDataAttributes : String
deriving DecidableEq, Repr

/-- The default body style-class installed by `BasePage.Load`. -/
def defaultBodyClass : String :=
  "h-screen flex flex-col bg-gray-50 dark:bg-gray-900 text-gray-900 dark:text-gray-100"

/-- Embeds `BasePage.Load` (mixins.go, lines 23-28): install the default
body class only when `BodyClass` is empty; always return `(nil, false)`.
The request and view context are unused by the Go code. -/
def BasePage.Load (p : BasePage) : BasePage × (Option String × Bool) :=
  (if p.BodyClass = "" then { p with BodyClass := defaultBodyClass } else p,
   (none, false))

/-- A loader in the chain: Go loaders mutate their receiver (and may write
to the response) and return `(err, finished)`; this is modelled as an
explicit state transformer over an abstract per-request state `σ`. -/
def GoLoader (σ : Type) : Type :=
  σ → σ × (Option String × Bool)

/-- Embeds `LoadAll` (view.go, lines 32-42): walk the loaders in order,
skipping `nil` entries (modelled as `none`); invoke each remaining loader
on the current state; return its `(err, finished)` outcome as soon as one
reports `finished` or a non-nil error; return `(nil, false)` after the
full sequence otherwise. -/
def LoadAll {σ : Type} : List (Option (GoLoader σ)) → σ → σ × (Option String × Bool)
  | [], s => (s, (none, false))
  | none :: rest, s => LoadAll rest s
  | some l :: rest, s =>
    match l s with
    | (s', (e, f)) =>
      if f || e.isSome then (s', (e, f)) else LoadAll rest s'

/-! ## Lemmas about `lastIdx` -/

theorem lastIdx_eq_none {l : List Char} {c : Char} (h : l.contains c = false) :
    lastIdx l c = none := by
  induction l with
  | nil => rfl
  | cons x xs ih =>
    simp only [List.contains_cons, Bool.or_eq_false_iff, beq_eq_false_iff_ne] at h
    have hne : x ≠ c := fun hx => h.1 hx.symm
    simp only [lastIdx, ih h.2, if_neg hne]

theorem lastIdx_append (l₁ l₂ : List Char) (c : Char) :
    lastIdx (l₁ ++ l₂) c =
      match lastIdx l₂ c with
      | some i => some (l₁.length + i)
      | none => lastIdx l₁ c := by
  induction l₁ with
  | nil =>
    cases h₂ : lastIdx l₂ c <;> simp [h₂, lastIdx]
  | cons x xs ih =>
    simp only [List.cons_append, lastIdx, List.append_eq, ih]
    cases h₂ : lastIdx l₂ c with
    | some i =>
      simp only [List.length_cons]
      exact congrArg some (by omega)
    | none =>
      rfl

theorem asString_data (s : String) : s.data.asString = s := by
  cases s
  rfl

/-- Claim C7: `ParseTemplateSpec` is total (it is a Lean function) and
implements the last-colon rule: `parse "A" = ("A", "A")`,
`parse "dir/A" = ("dir/A", "A")`, `parse "dir/A:B" = ("dir/A", "B")`,
`parse "dir/A:" = ("dir/A", "")`; and when no `:` is present the block
name is `baseFileName`, which is the substring after the last `/`, or the
whole string when there is no `/`. -/
theorem C7_parse_template_spec_last_colon_rule :
    ParseTemplateSpec "A" = ("A", "A") ∧
    ParseTemplateSpec "dir/A" = ("dir/A", "A") ∧
    ParseTemplateSpec "dir/A:B" = ("dir/A", "B") ∧
    ParseTemplateSpec "dir/A:" = ("dir/A", "") ∧
    (∀ s : String, containsChar s ':' = false →
      ParseTemplateSpec s = (s, baseFileName s)) ∧
    (∀ s : String, containsChar s '/' = false → baseFileName s = s) ∧
    (∀ pre post : String, containsChar post '/' = false →
      baseFileName (pre ++ "/" ++ post) = post) := by
  refine ⟨by decide, by decide, by decide, by decide, ?_, ?_, ?_⟩
  · intro s hs
    simp only [ParseTemplateSpec, strLastIndex, lastIdx_eq_none hs]
  · intro s hs
    simp only [baseFileName, strLastIndex, lastIdx_eq_none hs]
  · intro pre post hpost
    have hdata : (pre ++ "/" ++ post).data = (pre.data ++ ['/']) ++ post.data := by
      simp [String.data_append]
    have hlast : strLastIndex (pre ++ "/" ++ post) '/' = some pre.data.length := by
      simp only [strLastIndex, hdata, List.append_assoc, List.singleton_append,
        lastIdx_append pre.data ('/' :: post.data) '/']
      simp [lastIdx, lastIdx_eq_none hpost]
    simp only [baseFileName, hlast, dropChars, hdata]
    have hlen : pre.data.length + 1 = (pre.data ++ ['/']).length := by
      simp
    rw [hlen, List.drop_left, asString_data]

/-- Witness for claim C7: the quantified conjuncts applied at concrete
inputs, with their hypotheses discharged by evaluation. -/
theorem C7_parse_template_spec_last_colon_rule_witness :
    ParseTemplateSpec "x/y" = ("x/y", baseFileName "x/y") ∧
    baseFileName "abc" = "abc" ∧
    baseFileName ("dir" ++ "/" ++ "File") = "File" :=
  ⟨C7_parse_template_spec_last_colon_rule.2.2.2.2.1 "x/y" (by decide),
   C7_parse_template_spec_last_colon_rule.2.2.2.2.2.1 "abc" (by decide),
   C7_parse_template_spec_last_colon_rule.2.2.2.2.2.2 "dir" "File" (by decide)⟩

/-- Claim C1: the claim (and the library's own `WithTemplate`
documentation) says that a `Register` call with an explicit template spec
ending in `:` renders with the empty block name, exactly as
`ParseTemplateSpec` returns it.  The code does not: `Register`'s
auto-derivation guard inspects the parsed file name (which no longer
contains the colon) instead of the original spec, so the explicitly empty
block name is replaced by the name auto-derived from the file name.  This
theorem evaluates the embedded resolution at the failing input from the
`WithTemplate` doc comment. -/
theorem C1_register_trailing_colon_block_not_empty :
    (ParseTemplateSpec "canvases/CanvasListingPage:").2 = "" ∧
    registerTemplateResolve (WithTemplate "canvases/CanvasListingPage:" emptyOptions)
        "CanvasListingPage" =
      ("canvases/CanvasListingPage", "CanvasListingPage") ∧
    ("CanvasListingPage" : String) ≠ "" := by
  refine ⟨by decide, by decide, by decide⟩

/-- Claim C2: the claim says `MuxBuilder.Page` is observably equivalent to
`Register`.  The code is not, in three ways, shown here at concrete
inputs: (1) with no template option, `Register` derives the file and block
name from the view's type name while `Page`'s `typeNameFromValue` reflects
on a nil interface and panics (modelled as `none`); (2) for a
trailing-colon spec, `Register` auto-derives a block name while `Page`
keeps the explicit empty one; (3) on a render error, `Register` writes the
500 "Template render error" response while `Page` discards the render
result and writes nothing after the render call. -/
theorem C2_muxbuilder_page_not_equivalent_to_register :
    (registerTemplateResolve emptyOptions "HomePage" = ("HomePage", "HomePage") ∧
      pageTemplateResolve emptyOptions = none) ∧
    (registerTemplateResolve (WithTemplate "dir/A:" emptyOptions) "HomePage" =
        ("dir/A", "A") ∧
      pageTemplateResolve (WithTemplate "dir/A:" emptyOptions) = some ("dir/A", "")) ∧
    (registerHandler "dir/A" "A" (none, false) (fun _ _ => some "boom") =
        [Event.renderCalled "dir/A" "A", Event.wroteError 500 "Template render error"] ∧
      pageHandler "dir/A" "" (none, false) (fun _ _ => some "boom") =
        [Event.renderCalled "dir/A" ""]) := by
  refine ⟨⟨by decide, by decide⟩, ⟨by decide, by decide⟩, ⟨rfl, rfl⟩⟩

/-- An integer already inside the two's-complement 64-bit range is left
unchanged by `wrap64`. -/
theorem wrap64_eq_self {z : ℤ} (h1 : -(2 ^ 63) ≤ z) (h2 : z < 2 ^ 63) :
    wrap64 z = z := by
  rw [wrap64, Int.emod_eq_of_lt (by omega) (by omega)]
  omega

/-- Counterexample for claim C8: the state `CurrentPage = 2^62`,
`PageSize = 4` is reachable from the request
`?page=4611686018427387904&pageSize=4` (the value passes `Atoi`'s int64
range check and both clamps), has `p ≥ 0` and `s ∈ [1, 100]` exactly as
the claim quantifies, and there the Go 64-bit product wraps: `Offset`
returns 0, not `p * s`. -/
theorem C8_offset_overflow_counterexample :
    (0 : ℤ) ≤ 2 ^ 62 ∧ (1 : ℤ) ≤ 4 ∧ (4 : ℤ) ≤ 100 ∧
    (WithPagination.Load [("page", "4611686018427387904"), ("pageSize", "4")]
        emptyPagination).1.CurrentPage = 2 ^ 62 ∧
    (WithPagination.Load [("page", "4611686018427387904"), ("pageSize", "4")]
        emptyPagination).1.PageSize = 4 ∧
    (WithPagination.Load [("page", "4611686018427387904"), ("pageSize", "4")]
        emptyPagination).1.Offset = 0 ∧
    (0 : ℤ) ≠ 2 ^ 62 * 4 := by
  refine ⟨by decide, by decide, by decide, by decide, by decide, by decide, by decide⟩

/-- Claim C8, amended: for every page number `p ≥ 0` and page size
`s ∈ [1, 100]`, `Offset` returns the two's-complement 64-bit wrap of
`p * s`, and returns exactly `p * s` whenever the product does not
overflow a 64-bit int (`p * s < 2^63`). -/
theorem C8_pagination_offset_mul (w : WithPagination)
    (hp : 0 ≤ w.CurrentPage) (hs1 : 1 ≤ w.PageSize) (hs2 : w.PageSize ≤ 100) :
    w.Offset = wrap64 (w.CurrentPage * w.PageSize) ∧
    (w.CurrentPage * w.PageSize < 2 ^ 63 →
      w.Offset = w.CurrentPage * w.PageSize) := by
  refine ⟨rfl, fun hno => ?_⟩
  have hz0 : 0 ≤ w.CurrentPage * w.PageSize :=
    mul_nonneg hp (le_trans (by norm_num) hs1)
  exact wrap64_eq_self (le_trans (by norm_num) hz0) hno

/-- Witness for claim C8 at a concrete pagination state whose product does
not overflow. -/
theorem C8_pagination_offset_mul_witness :
    ({ emptyPagination with CurrentPage := 3, PageSize := 20 } : WithPagination).Offset =
      3 * 20 :=
  (C8_pagination_offset_mul
    { emptyPagination with CurrentPage := 3, PageSize := 20 }
    (by decide) (by decide) (by decide)).2 (by decide)

/-- Claim C9: `BasePage.Load` never overwrites a non-empty `BodyClass`,
is idempotent (running it twice yields the state of running it once), and
always returns `(nil, false)`. -/
theorem C9_base_page_load_idempotent (p : BasePage) :
    (p.BodyClass ≠ "" → (BasePage.Load p).1 = p) ∧
    (BasePage.Load (BasePage.Load p).1).1 = (BasePage.Load p).1 ∧
    (BasePage.Load p).2 = (none, false) := by
  by_cases h : p.BodyClass = ""
  · refine ⟨fun hne => absurd h hne, ?_, rfl⟩
    simp [BasePage.Load, h, defaultBodyClass]
  · refine ⟨fun _ => by simp [BasePage.Load, h], ?_, rfl⟩
    simp [BasePage.Load, h]

/-- Witness for claim C9 at a concrete page state with a non-empty
body class. -/
theorem C9_base_page_load_idempotent_witness :
    (BasePage.Load
      { Title := "t", BodyClass := "dark", ActiveTab := "", CustomHeader := false,
        DisableSplashScreen := false, SplashTitle := "", SplashMessage := "",
        BodyDataAttributes := "" }).1 =
      { Title := "t", BodyClass := "dark", ActiveTab := "", CustomHeader := false,
        DisableSplashScreen := false, SplashTitle := "", SplashMessage := "",
        BodyDataAttributes := "" } :=
  (C9_base_page_load_idempotent
    { Title := "t", BodyClass := "dark", ActiveTab := "", CustomHeader := false,
      DisableSplashScreen := false, SplashTitle := "", SplashMessage := "",
      BodyDataAttributes := "" }).1 (by decide)

/-- Claim C10: a malformed integer query parameter is silently replaced by
its default: whenever `page` (resp. `pageSize`) is present but not
parseable, `WithPagination.Load` stores 0 (resp. 20), and for every
request it returns `(nil, false)` — no input produces an error or an
early finish. -/
theorem C10_malformed_int_param_uses_default (q : Query) (p : WithPagination) :
    (queryGet q "page" ≠ "" → goAtoi (queryGet q "page") = none →
      (WithPagination.Load q p).1.CurrentPage = 0) ∧
    (queryGet q "pageSize" ≠ "" → goAtoi (queryGet q "pageSize") = none →
      (WithPagination.Load q p).1.PageSize = 20) ∧
    (WithPagination.Load q p).2 = (none, false) := by
  refine ⟨?_, ?_, rfl⟩
  · intro hne hnone
    have h1 : intQueryParam q "page" 0 = 0 := by
      simp only [intQueryParam, if_neg hne, hnone]
    simp [WithPagination.Load, h1]
  · intro hne hnone
    have h1 : intQueryParam q "pageSize" 20 = 20 := by
      simp only [intQueryParam, if_neg hne, hnone]
    simp [WithPagination.Load, h1]

/-- Witness for claim C10 at a concrete request whose `page` and
`pageSize` values are not integer literals. -/
theorem C10_malformed_int_param_uses_default_witness :
    (WithPagination.Load [("page", "abc"), ("pageSize", "xyz")] emptyPagination).1.CurrentPage
        = 0 ∧
    (WithPagination.Load [("page", "abc"), ("pageSize", "xyz")] emptyPagination).1.PageSize
        = 20 :=
  ⟨(C10_malformed_int_param_uses_default [("page", "abc"), ("pageSize", "xyz")]
      emptyPagination).1 (by decide) (by decide),
   (C10_malformed_int_param_uses_default [("page", "abc"), ("pageSize", "xyz")]
      emptyPagination).2.1 (by decide) (by decide)⟩

/-- Counterexample for claim C3: on the request `?pageSize=0` the code
stores `PageSize = 20` (the reset-to-default branch), while the claimed
formula `min 100 (max 1 v)` gives 1. -/
theorem C3_pagesize_clamp_counterexample :
    goAtoi (queryGet [("pageSize", "0")] "pageSize") = some 0 ∧
    (WithPagination.Load [("pageSize", "0")] emptyPagination).1.PageSize = 20 ∧
    (20 : ℤ) ≠ min 100 (max 1 0) := by
  refine ⟨by decide, by decide, by decide⟩

/-- Claim C3, amended: `Load` stores `CurrentPage = max 0 page` (default
0); for a supplied and parseable `pageSize` value `v` it stores 20 when
`v < 1` and `min 100 v` otherwise, so the stored `PageSize` never falls
outside `[1, 100]`, with 20 also used when the parameter is absent; and
`Load` always returns `(nil, false)`. -/
theorem C3_pagination_load_defaults_and_clamp (q : Query) (p : WithPagination) :
    (WithPagination.Load q p).1.CurrentPage = max 0 (intQueryParam q "page" 0) ∧
    (∀ v : ℤ, goAtoi (queryGet q "pageSize") = some v →
      (WithPagination.Load q p).1.PageSize = if v < 1 then 20 else min 100 v) ∧
    (queryGet q "pageSize" = "" → (WithPagination.Load q p).1.PageSize = 20) ∧
    1 ≤ (WithPagination.Load q p).1.PageSize ∧
    (WithPagination.Load q p).1.PageSize ≤ 100 ∧
    (WithPagination.Load q p).2 = (none, false) := by
  refine ⟨?_, ?_, ?_, ?_, ?_, rfl⟩
  · simp only [WithPagination.Load]
    split_ifs with h <;> omega
  · intro v hv
    have hne : queryGet q "pageSize" ≠ "" := by
      intro h
      rw [h] at hv
      simp [goAtoi] at hv
    have h1 : intQueryParam q "pageSize" 20 = v := by
      simp only [intQueryParam, if_neg hne, hv]
    simp only [WithPagination.Load, h1]
    split_ifs with h2 h3 h4 <;> omega
  · intro h
    have h1 : intQueryParam q "pageSize" 20 = 20 := by
      simp only [intQueryParam, if_pos h]
    simp [WithPagination.Load, h1]
  · simp only [WithPagination.Load]
    split_ifs <;> omega
  · simp only [WithPagination.Load]
    split_ifs <;> omega

/-- Witness for claim C3 (amended) on the request
`?page=-3&pageSize=250`. -/
theorem C3_pagination_load_defaults_and_clamp_witness :
    (WithPagination.Load [("page", "-3"), ("pageSize", "250")] emptyPagination).1.CurrentPage
        = max 0 (intQueryParam [("page", "-3"), ("pageSize", "250")] "page" 0) ∧
    (WithPagination.Load [("page", "-3"), ("pageSize", "250")] emptyPagination).1.PageSize
        = if (250 : ℤ) < 1 then 20 else min 100 250 :=
  ⟨(C3_pagination_load_defaults_and_clamp [("page", "-3"), ("pageSize", "250")]
      emptyPagination).1,
   (C3_pagination_load_defaults_and_clamp [("page", "-3"), ("pageSize", "250")]
      emptyPagination).2.1 250 (by decide)⟩

/-- Claim C4: `LoadAll` skips `nil` entries, runs the loaders in order on
the threaded state, returns the outcome of the first loader reporting
`finished = true` or a non-nil error without running the rest of the
sequence, and returns `(nil, false)` after a full sequence in which no
loader stops the chain. -/
theorem C4_load_all_short_circuit (σ : Type) (s : σ) (l : GoLoader σ)
    (rest : List (Option (GoLoader σ))) :
    LoadAll ([] : List (Option (GoLoader σ))) s = (s, (none, false)) ∧
    LoadAll (none :: rest) s = LoadAll rest s ∧
    ((l s).2.2 = true ∨ (l s).2.1 ≠ none →
      LoadAll (some l :: rest) s = l s) ∧
    ((l s).2.2 = false ∧ (l s).2.1 = none →
      LoadAll (some l :: rest) s = LoadAll rest (l s).1) ∧
    (∀ ls : List (Option (GoLoader σ)),
      (∀ g : GoLoader σ, some g ∈ ls → ∀ t : σ, (g t).2 = (none, false)) →
      ∀ t : σ, (LoadAll ls t).2 = (none, false)) := by
  refine ⟨rfl, rfl, ?_, ?_, ?_⟩
  · intro h
    rcases hls : l s with ⟨s', e, f⟩
    rw [hls] at h
    replace h : f = true ∨ e ≠ none := h
    have hcond : (f || e.isSome) = true := by
      rcases h with h | h
      · simp [h]
      · cases e
        · exact absurd rfl h
        · simp
    simp [LoadAll, hls, hcond]
  · intro h
    rcases hls : l s with ⟨s', e, f⟩
    rw [hls] at h
    replace h : f = false ∧ e = none := h
    obtain ⟨hf, he⟩ := h
    subst hf he
    simp [LoadAll, hls]
  · intro ls
    induction ls with
    | nil => intro _ t; rfl
    | cons x xs ih =>
      intro h t
      cases x with
      | none =>
        exact ih (fun g hg => h g (List.mem_cons_of_mem _ hg)) t
      | some g =>
        rcases hgt : g t with ⟨t', e, f⟩
        have hout : (e, f) = (none, false) := by
          have := h g (List.mem_cons_self _ _) t
          rw [hgt] at this
          exact this
        rw [Prod.mk.injEq] at hout
        obtain ⟨he, hf⟩ := hout
        subst he hf
        simp only [LoadAll, hgt, Option.isSome_none, Bool.or_false, if_neg]
        exact ih (fun g' hg' => h g' (List.mem_cons_of_mem _ hg')) t'

/-- Witness for claim C4 over concrete loaders on a `ℕ` state: an
early-finish loader short-circuits, and a non-stopping loader leads to the
`(nil, false)` outcome. -/
theorem C4_load_all_short_circuit_witness :
    LoadAll [some (fun n : ℕ => (n + 1, (none, true)))] 0 =
      ((fun n : ℕ => (n + 1, ((none : Option String), true))) 0) ∧
    LoadAll [(none : Option (GoLoader ℕ))] 5 =
      LoadAll ([] : List (Option (GoLoader ℕ))) 5 ∧
    (LoadAll [some (fun n : ℕ => (n + 2, (none, false)))] 7).2 = (none, false) :=
  ⟨(C4_load_all_short_circuit ℕ 0 (fun n => (n + 1, (none, true))) []).2.2.1
      (Or.inl rfl),
   (C4_load_all_short_circuit ℕ 5 (fun n => (n + 1, (none, true))) []).2.1,
   (C4_load_all_short_circuit ℕ 7 (fun n => (n + 2, (none, false)))
      []).2.2.2.2 [some (fun n => (n + 2, (none, false)))]
      (by
        intro g hg t
        simp only [List.mem_singleton, Option.some.injEq] at hg
        subst hg
        rfl) 7⟩

/-- Claim C5: for a `Register`-produced handler, an early finish writes
nothing and does not render (taking precedence over any error); a load
error yields a 500 response carrying the error's message without
rendering; otherwise the render operation runs exactly once, and on a
render error the handler writes a 500 response with the fixed body
"Template render error" rather than the render error's detail. -/
theorem C5_register_handler_outcomes (fileName blockName : String)
    (loadRes : Option String × Bool) (render : String → String → Option String) :
    (loadRes.2 = true → registerHandler fileName blockName loadRes render = []) ∧
    (∀ msg, loadRes = (some msg, false) →
      registerHandler fileName blockName loadRes render = [Event.wroteError 500 msg]) ∧
    (loadRes = (none, false) →
      renderCount (registerHandler fileName blockName loadRes render) = 1 ∧
      (∀ msg, render fileName blockName = some msg →
        registerHandler fileName blockName loadRes render =
          [Event.renderCalled fileName blockName,
           Event.wroteError 500 "Template render error"]) ∧
      (render fileName blockName = none →
        registerHandler fileName blockName loadRes render =
          [Event.renderCalled fileName blockName])) := by
  refine ⟨?_, ?_, ?_⟩
  · intro h
    rcases loadRes with ⟨e, f⟩
    simp only at h
    subst h
    cases e <;> rfl
  · intro msg h
    subst h
    rfl
  · intro h
    subst h
    refine ⟨?_, ?_, ?_⟩
    · cases hr : render fileName blockName <;>
        simp [registerHandler, renderCount, hr, Event.renderCalled]
    · intro msg hr
      simp [registerHandler, hr]
    · intro hr
      simp [registerHandler, hr]

/-- Witness for claim C5: the three handler outcomes at concrete load and
render results. -/
theorem C5_register_handler_outcomes_witness :
    registerHandler "F" "B" (some "oops", true) (fun _ _ => none) = [] ∧
    registerHandler "F" "B" (some "oops", false) (fun _ _ => none) =
      [Event.wroteError 500 "oops"] ∧
    registerHandler "F" "B" (none, false) (fun _ _ => some "detail") =
      [Event.renderCalled "F" "B", Event.wroteError 500 "Template render error"] :=
  ⟨(C5_register_handler_outcomes "F" "B" (some "oops", true) (fun _ _ => none)).1 rfl,
   (C5_register_handler_outcomes "F" "B" (some "oops", false) (fun _ _ => none)).2.1
      "oops" rfl,
   ((C5_register_handler_outcomes "F" "B" (none, false)
      (fun _ _ => some "detail")).2.2 rfl).2.1 "detail" rfl⟩

/-! ## Lemmas about `intRange` and the ceiling division -/

theorem mem_intRange {a b x : ℤ} : x ∈ intRange a b ↔ a ≤ x ∧ x < b := by
  constructor
  · intro hx
    rw [intRange, List.mem_map] at hx
    obtain ⟨i, hi, hix⟩ := hx
    rw [List.mem_range] at hi
    subst hix
    omega
  · intro h
    rw [intRange, List.mem_map]
    refine ⟨(x - a).toNat, ?_, ?_⟩
    · rw [List.mem_range]
      omega
    · omega

theorem length_intRange (a b : ℤ) : (intRange a b).length = (b - a).toNat := by
  rw [intRange, List.length_map, List.length_range]

/-- For positive operands, the expression `(T + S - 1) / S` computed with
Go's truncating division equals the mathematical ceiling of `T / S`. -/
theorem ceil_div_eq_goDiv (T S : ℤ) (hT : 0 < T) (hS : 0 < S) :
    Int.ceil ((T : ℚ) / (S : ℚ)) = goDiv (T + S - 1) S := by
  have hnum : (0 : ℤ) ≤ T + S - 1 := by omega
  rw [goDiv, Int.tdiv_eq_ediv hnum (le_of_lt hS)]
  rw [Int.ceil_eq_iff]
  have hmod : S * ((T + S - 1) / S) + (T + S - 1) % S = T + S - 1 :=
    Int.ediv_add_emod _ _
  have hr0 : 0 ≤ (T + S - 1) % S := Int.emod_nonneg _ (by omega)
  have hrS : (T + S - 1) % S < S := Int.emod_lt_of_pos _ hS
  have h2 : S * ((T + S - 1) / S) ≤ T + S - 1 := by linarith
  have h3 : T ≤ S * ((T + S - 1) / S) := by linarith
  have hSQ : (0 : ℚ) < (S : ℚ) := by exact_mod_cast hS
  constructor
  · rw [lt_div_iff hSQ]
    have h2q : (S : ℚ) * ((T + S - 1) / S : ℤ) ≤ (T : ℚ) + S - 1 := by
      exact_mod_cast h2
    nlinarith
  · rw [div_le_iff hSQ]
    have h3q : (T : ℚ) ≤ (S : ℚ) * ((T + S - 1) / S : ℤ) := by
      exact_mod_cast h3
    nlinarith

/-- Claim C6: for all values of `TotalCount`, `PageSize` (and
`CurrentPage`), the window computed by `EvalPages` has at most 5 entries,
every entry lies in `[0, ceil(TotalCount / PageSize))`, and the window is
empty whenever `ceil(TotalCount / PageSize) ≤ 1`. -/
theorem C6_eval_pages_window (totalCount pageSize currentPage : ℤ) :
    (evalPagesList totalCount pageSize currentPage).length ≤ 5 ∧
    (∀ x ∈ evalPagesList totalCount pageSize currentPage,
      0 ≤ x ∧ x < Int.ceil ((totalCount : ℚ) / (pageSize : ℚ))) ∧
    (Int.ceil ((totalCount : ℚ) / (pageSize : ℚ)) ≤ 1 →
      evalPagesList totalCount pageSize currentPage = []) := by
  by_cases h0 : totalCount ≤ 0 ∨ pageSize ≤ 0
  · rw [evalPagesList, if_pos h0]
    exact ⟨by simp, by simp, fun _ => rfl⟩
  · have hT : 0 < totalCount := by omega
    have hS : 0 < pageSize := by omega
    have hceil := ceil_div_eq_goDiv totalCount pageSize hT hS
    rw [evalPagesList, if_neg h0]
    simp only
    by_cases h1 : goDiv (totalCount + pageSize - 1) pageSize ≤ 1
    · rw [if_pos h1]
      exact ⟨by simp, by simp, fun _ => rfl⟩
    · rw [if_neg h1]
      rw [hceil]
      by_cases h2 : goDiv (totalCount + pageSize - 1) pageSize <
          (if currentPage - 2 < 0 then 0 else currentPage - 2) + 5
      · rw [if_pos h2]
        refine ⟨?_, ?_, fun hle => absurd hle (by omega)⟩
        · rw [length_intRange]
          split_ifs at h2 ⊢ <;> omega
        · intro x hx
          rw [mem_intRange] at hx
          split_ifs at hx <;> omega
      · rw [if_neg h2]
        refine ⟨?_, ?_, fun hle => absurd hle (by omega)⟩
        · rw [length_intRange]
          split_ifs <;> omega
        · intro x hx
          rw [mem_intRange] at hx
          split_ifs at hx h2 <;> omega

/-- Witness for claim C6 at `TotalCount = 10`, `PageSize = 3`,
`CurrentPage = 0` (a 4-page listing) and, for the emptiness conjunct, at
`TotalCount = 1`. -/
theorem C6_eval_pages_window_witness :
    (evalPagesList 10 3 0).length ≤ 5 ∧
    (0 ≤ (2 : ℤ) ∧ (2 : ℤ) < Int.ceil ((10 : ℚ) / (3 : ℚ))) ∧
    evalPagesList 1 3 0 = [] :=
  ⟨(C6_eval_pages_window 10 3 0).1,
   (C6_eval_pages_window 10 3 0).2.1 2 (by decide),
   (C6_eval_pages_window 1 3 0).2.2 (by
      rw [Int.ceil_le]
      norm_num)⟩

end GoAppLib
